import Mathlib

open List

/-!
Verification of the par-term protocol reference scripts
(`scripts/test_script_observer.py`, `scripts/test_coprocess.py`) against their
specification.  JSON values are embedded as an inductive type; Python's
`json.loads` is embedded as a fuel-indexed recursive-descent routine (fuel is
structural, so everything evaluates in the kernel); raised Python exceptions
are embedded as `Except.error`; the stateful read loops are embedded as folds
over explicit input-line lists.
-/

/-- A JSON value, as produced by `json.loads`.  Numeric literals are modelled
as integers: every number appearing in the protocol (exit codes, sizes,
counts) is integral, and no claim depends on fractional values. -/
inductive Json where
  | null
  | bool (b : Bool)
  | num (n : Int)
  | str (s : String)
  | arr (elts : List Json)
  | obj (fields : List (String × Json))

/-- Truthiness of a JSON value under Python's `bool()` coercion, as used by
`if not kind:` and `if k.strip()`. -/
def pyFalsy : Json → Bool
  | .null => true
  | .bool b => !b
  | .num n => n == 0
  | .str s => s == ""
  | .arr l => l.isEmpty
  | .obj l => l.isEmpty

/-- Whether a JSON value is hashable, i.e. usable as a Python `dict` key.
Lists and dicts raise `TypeError: unhashable type` when used as keys. -/
def hashableKey : Json → Bool
  | .null => true
  | .bool _ => true
  | .num _ => true
  | .str _ => true
  | .arr _ => false
  | .obj _ => false

/-- Equality of two hashable JSON values as Python `dict` keys.  Python
considers `True == 1` and `False == 0`; container values are never reached on
the key-comparison path (the interpreter raises before comparing them). -/
def scalarKeyEq : Json → Json → Bool
  | .null, .null => true
  | .bool a, .bool b => a == b
  | .num a, .num b => a == b
  | .bool a, .num b => (if a then (1 : Int) else 0) == b
  | .num a, .bool b => a == (if b then (1 : Int) else 0)
  | .str a, .str b => a == b
  | _, _ => false

/-- Python `str()` of a scalar JSON value, as interpolated by f-strings.
Container values never reach an f-string in any verified claim; they are
rendered with a fixed placeholder (their Python repr is not modelled). -/
def pyStrOf : Json → String
  | .null => "None"
  | .bool true => "True"
  | .bool false => "False"
  | .num n => toString n
  | .str s => s
  | .arr _ => "<list>"
  | .obj _ => "<dict>"

/-- Whitespace characters stripped by Python's `str.strip()`. -/
def pyIsSpace (c : Char) : Bool :=
  c = ' ' || c = '\t' || c = '\n' || c = '\r' || c = '\x0b' || c = '\x0c'

/-- Python `str.strip()` on a character list. -/
def pyStripChars (cs : List Char) : List Char :=
  ((cs.dropWhile pyIsSpace).reverse.dropWhile pyIsSpace).reverse

/-- Python `str.strip()`. -/
def pyStrip (s : String) : String :=
  String.mk (pyStripChars s.data)

/-- JSON whitespace skipped between tokens by `json.loads`. -/
def isJsonWs (c : Char) : Bool :=
  c = ' ' || c = '\t' || c = '\n' || c = '\r'

/-- Skip JSON whitespace. -/
def skipWs (cs : List Char) : List Char :=
  cs.dropWhile isJsonWs

/-- Value of a hex digit, for `\uXXXX` escapes. -/
def hexVal (c : Char) : Option Nat :=
  if c.isDigit then some (c.toNat - 48)
  else if 'a' ≤ c && c ≤ 'f' then some (c.toNat - 87)
  else if 'A' ≤ c && c ≤ 'F' then some (c.toNat - 70)
  else none

/-- Parse the body of a JSON string literal, the opening quote already
consumed; returns the decoded content and the remaining input.  Fuel is at
least the input length at every call site.  Unescaped control characters are
rejected, as `json.loads` does in its default strict mode. -/
def parseStrBody : Nat → List Char → Option (String × List Char)
  | 0, _ => none
  | _ + 1, [] => none
  | fuel + 1, c :: rest =>
    if c = '"' then some ("", rest)
    else if c = '\\' then
      match rest with
      | [] => none
      | e :: rest2 =>
        let esc : Option (Char × List Char) :=
          if e = '"' then some ('"', rest2)
          else if e = '\\' then some ('\\', rest2)
          else if e = '/' then some ('/', rest2)
          else if e = 'n' then some ('\n', rest2)
          else if e = 't' then some ('\t', rest2)
          else if e = 'r' then some ('\r', rest2)
          else if e = 'b' then some ('\x08', rest2)
          else if e = 'f' then some ('\x0c', rest2)
          else if e = 'u' then
            match rest2 with
            | h1 :: h2 :: h3 :: h4 :: rest3 =>
              match hexVal h1, hexVal h2, hexVal h3, hexVal h4 with
              | some a, some b, some c2, some d =>
                some (Char.ofNat (((a * 16 + b) * 16 + c2) * 16 + d), rest3)
              | _, _, _, _ => none
            | _ => none
          else none
        match esc with
        | none => none
        | some (ch, rest3) =>
          match parseStrBody fuel rest3 with
          | none => none
          | some (s, r) => some (String.mk (ch :: s.data), r)
    else if c.toNat < 32 then none
    else
      match parseStrBody fuel rest with
      | none => none
      | some (s, r) => some (String.mk (c :: s.data), r)

/-- Digits to a natural number. -/
def digitsToNat (ds : List Char) : Nat :=
  ds.foldl (fun a c => a * 10 + (c.toNat - 48)) 0

/-- Parse an integer JSON numeral (optional minus sign, then digits).
Fractional and exponent forms are not modelled (see `Json.num`). -/
def parseIntNum (cs : List Char) : Option (Json × List Char) :=
  match cs with
  | '-' :: rest =>
    let ds := rest.takeWhile Char.isDigit
    if ds.isEmpty then none
    else some (.num (-(digitsToNat ds : Int)), rest.dropWhile Char.isDigit)
  | _ =>
    let ds := cs.takeWhile Char.isDigit
    if ds.isEmpty then none
    else some (.num (digitsToNat ds : Int), cs.dropWhile Char.isDigit)

/-- Parse the elements of a non-empty JSON array, given the routine `pv` for a
single value; the opening bracket and any following whitespace are already
consumed. -/
def parseArrRest (pv : List Char → Option (Json × List Char)) :
    Nat → List Char → Option (List Json × List Char)
  | 0, _ => none
  | fuel + 1, cs =>
    match pv cs with
    | none => none
    | some (j, r) =>
      match skipWs r with
      | ',' :: r2 =>
        match parseArrRest pv fuel r2 with
        | none => none
        | some (js, r3) => some (j :: js, r3)
      | ']' :: r2 => some ([j], r2)
      | _ => none

/-- Parse the members of a non-empty JSON object, given the routine `pv` for a
single value; the opening brace and any following whitespace are already
consumed. -/
def parseObjRest (pv : List Char → Option (Json × List Char)) :
    Nat → List Char → Option (List (String × Json) × List Char)
  | 0, _ => none
  | fuel + 1, cs =>
    match cs with
    | '"' :: r =>
      match parseStrBody (r.length + 1) r with
      | none => none
      | some (k, r2) =>
        match skipWs r2 with
        | ':' :: r3 =>
          match pv r3 with
          | none => none
          | some (v, r4) =>
            match skipWs r4 with
            | ',' :: r5 =>
              match parseObjRest pv fuel (skipWs r5) with
              | none => none
              | some (fs, r6) => some ((k, v) :: fs, r6)
            | '\x7d' :: r5 => some ([(k, v)], r5)
            | _ => none
        | _ => none
    | _ => none

/-- Parse one JSON value (leading whitespace allowed); returns the value and
the remaining input. -/
def parseVal : Nat → List Char → Option (Json × List Char)
  | 0, _ => none
  | fuel + 1, cs =>
    match skipWs cs with
    | [] => none
    | c :: rest =>
      if c = '"' then
        match parseStrBody (rest.length + 1) rest with
        | none => none
        | some (s, r) => some (.str s, r)
      else if c = '\x7b' then
        match skipWs rest with
        | '\x7d' :: r => some (.obj [], r)
        | cs2 =>
          match parseObjRest (fun s => parseVal fuel s) (fuel + 1) cs2 with
          | none => none
          | some (fs, r) => some (.obj fs, r)
      else if c = '[' then
        match skipWs rest with
        | ']' :: r => some (.arr [], r)
        | cs2 =>
          match parseArrRest (fun s => parseVal fuel s) (fuel + 1) cs2 with
          | none => none
          | some (js, r) => some (.arr js, r)
      else if c = 't' then
        match rest with
        | 'r' :: 'u' :: 'e' :: r => some (.bool true, r)
        | _ => none
      else if c = 'f' then
        match rest with
        | 'a' :: 'l' :: 's' :: 'e' :: r => some (.bool false, r)
        | _ => none
      else if c = 'n' then
        match rest with
        | 'u' :: 'l' :: 'l' :: r => some (.null, r)
        | _ => none
      else if c = '-' || c.isDigit then parseIntNum (c :: rest)
      else none

/-- Python's `json.loads`: parse one JSON value and reject trailing data.  A
`DecodeError` (Python `json.JSONDecodeError`) is an `Except.error`; the
exception text is modelled as a fixed message, not Python's verbatim one. -/
def json_loads (s : String) : Except String Json :=
  match parseVal (2 * s.data.length + 8) s.data with
  | none => .error ("Invalid JSON")
  | some (j, rest) =>
    if (skipWs rest).isEmpty then .ok j else .error ("Extra data")

/-- One observable step of `event_stream`: either a yielded event or the
side-channel `log("error", "Invalid JSON from terminal: ...")` call made for a
line that failed JSON decoding. -/
inductive StreamItem where
  | ev (j : Json)
  | decodeErr (msg : String)

/-- `event_stream` (`test_script_observer.py:118-127`): yields events from the
input lines until end of stream; blank lines are skipped; a line that fails
JSON decoding produces a `decodeErr` report and iteration continues. -/
def event_stream : List String → List StreamItem
  | [] => []
  | line :: rest =>
    let s := pyStrip line
    if s = "" then event_stream rest
    else
      match json_loads s with
      | .ok j => .ev j :: event_stream rest
      | .error e => .decodeErr e :: event_stream rest

/-- `read_event` (`test_script_observer.py:107-115`): read one line from the
input; `none` on end of stream and also on a blank line; `json.loads` is
applied with no exception handler, so a malformed line propagates the decode
exception (`Except.error`).  Returns the remaining input alongside the
result. -/
def read_event : List String → Except String (Option Json × List String)
  | [] => .ok (none, [])
  | line :: rest =>
    let s := pyStrip line
    if s = "" then .ok (none, rest)
    else
      match json_loads s with
      | .ok j => .ok (some j, rest)
      | .error e => .error e

/-- Python `d.get(key, default)`.  Calling `.get` on a non-dict raises
`AttributeError`.  Duplicate keys do not arise from `json.loads`; the first
binding is returned. -/
def jget (j : Json) (k : String) (dflt : Json) : Except String Json :=
  match j with
  | .obj fs => .ok ((fs.lookup k).getD dflt)
  | _ => .error ("AttributeError: get")

/-- Substring test on character lists, for Python's `in` on strings. -/
def containsSub (n : List Char) : List Char → Bool
  | [] => n.isEmpty
  | c :: cs => n.isPrefixOf (c :: cs) || containsSub n cs

/-- Python `key in j`: membership for dicts, substring test for strings,
`TypeError` otherwise.  Every call site in the embedded code is reached only
after `j` is known to be a dict. -/
def pyIn (k : String) : Json → Except String Bool
  | .obj fs => .ok ((fs.lookup k).isSome)
  | .str s => .ok (containsSub k.data s.data)
  | _ => .error ("TypeError: in")

/-- Python `x is not None and x != 0` is the negation of this: whether a JSON
value compares equal to `0` (Python: `False == 0`, `0 == 0`). -/
def pyEqZero : Json → Bool
  | .num n => n == 0
  | .bool b => b == false
  | _ => false

/-- The Command model: the 9 script-to-host directives with their
variant-specific fields (spec section 3; constructed by the helpers at
`test_script_observer.py:62-104`).  `ChangeConfig.value` carries an arbitrary
JSON value; all other fields are strings. -/
inductive Command where
  | Log (level message : String)
  | Notify (title body : String)
  | SetPanel (title content : String)
  | ClearPanel
  | WriteText (text : String)
  | SetBadge (text : String)
  | SetVariable (name value : String)
  | RunCommand (command : String)
  | ChangeConfig (key : String) (value : Json)

/-- The dict built by `log` (`test_script_observer.py:62-64`) and passed to
`send`.  These helpers model the serialized line at the JSON-value level: the
byte-level `json.dumps`/`json.loads` round trip is the identity on these
dicts. -/
def sendLog (level message : String) : Json :=
  Json.obj [("type", Json.str ("Log")), ("level", Json.str level),
    ("message", Json.str message)]

/-- The dict built by `notify` (`test_script_observer.py:67-69`). -/
def sendNotify (title body : String) : Json :=
  Json.obj [("type", Json.str ("Notify")), ("title", Json.str title),
    ("body", Json.str body)]

/-- The dict built by `set_panel` (`test_script_observer.py:72-74`). -/
def sendSetPanel (title content : String) : Json :=
  Json.obj [("type", Json.str ("SetPanel")), ("title", Json.str title),
    ("content", Json.str content)]

/-- The dict built by `clear_panel` (`test_script_observer.py:77-79`). -/
def sendClearPanel : Json :=
  Json.obj [("type", Json.str ("ClearPanel"))]

/-- The dict built by `write_text` (`test_script_observer.py:82-84`). -/
def sendWriteText (text : String) : Json :=
  Json.obj [("type", Json.str ("WriteText")), ("text", Json.str text)]

/-- The dict built by `set_badge` (`test_script_observer.py:87-89`). -/
def sendSetBadge (text : String) : Json :=
  Json.obj [("type", Json.str ("SetBadge")), ("text", Json.str text)]

/-- The dict built by `set_variable` (`test_script_observer.py:92-94`).  The
`value` argument is whatever JSON value the caller extracted from an event
(e.g. `data.get("cwd", "")`), so it is kept as `Json`. -/
def sendSetVariable (name : String) (value : Json) : Json :=
  Json.obj [("type", Json.str ("SetVariable")), ("name", Json.str name),
    ("value", value)]

/-- The dict built by `run_command` (`test_script_observer.py:97-99`). -/
def sendRunCommand (command : String) : Json :=
  Json.obj [("type", Json.str ("RunCommand")), ("command", Json.str command)]

/-- The dict built by `change_config` (`test_script_observer.py:102-104`). -/
def sendChangeConfig (key : String) (value : Json) : Json :=
  Json.obj [("type", Json.str ("ChangeConfig")), ("key", Json.str key),
    ("value", value)]

/-- Encoding of a Command value: the JSON object the corresponding helper
builds and `send` serializes as one line. -/
def encodeCommand : Command → Json
  | .Log level message => sendLog level message
  | .Notify title body => sendNotify title body
  | .SetPanel title content => sendSetPanel title content
  | .ClearPanel => sendClearPanel
  | .WriteText text => sendWriteText text
  | .SetBadge text => sendSetBadge text
  | .SetVariable name value => sendSetVariable name (Json.str value)
  | .RunCommand command => sendRunCommand command
  | .ChangeConfig key value => sendChangeConfig key value

/-- Modelled from the spec: no command parser exists in this repository (the
host terminal parses commands; spec section 8 says the Command side "could
parse for testing").  Dispatches on the `"type"` tag and reads the
variant-specific fields of spec section 6. -/
def decode_as_command (j : Json) : Option Command :=
  match j with
  | .obj fs =>
    match fs.lookup ("type") with
    | some (.str t) =>
      if t = "Log" then
        match fs.lookup ("level"), fs.lookup ("message") with
        | some (.str l), some (.str m) => some (.Log l m)
        | _, _ => none
      else if t = "Notify" then
        match fs.lookup ("title"), fs.lookup ("body") with
        | some (.str a), some (.str b) => some (.Notify a b)
        | _, _ => none
      else if t = "SetPanel" then
        match fs.lookup ("title"), fs.lookup ("content") with
        | some (.str a), some (.str b) => some (.SetPanel a b)
        | _, _ => none
      else if t = "ClearPanel" then some .ClearPanel
      else if t = "WriteText" then
        match fs.lookup ("text") with
        | some (.str a) => some (.WriteText a)
        | _ => none
      else if t = "SetBadge" then
        match fs.lookup ("text") with
        | some (.str a) => some (.SetBadge a)
        | _ => none
      else if t = "SetVariable" then
        match fs.lookup ("name"), fs.lookup ("value") with
        | some (.str a), some (.str b) => some (.SetVariable a b)
        | _, _ => none
      else if t = "RunCommand" then
        match fs.lookup ("command") with
        | some (.str a) => some (.RunCommand a)
        | _ => none
      else if t = "ChangeConfig" then
        match fs.lookup ("key"), fs.lookup ("value") with
        | some (.str a), some v => some (.ChangeConfig a v)
        | _, _ => none
      else none
    | _ => none
  | _ => none

/-- The mutable accumulators of `mode_monitor`
(`test_script_observer.py:138-142`).  `event_kinds` is a Python dict keyed by
the event kind: insertion-ordered, so the key order records first-seen order.
The timing baseline (`start_time`) feeds only the displayed rate and is not
modelled. -/
structure MonitorState where
  event_count : Nat
  event_kinds : List (Json × Nat)
  last_cwd : Json
  last_title : Json
  errors : Nat

/-- Initial monitor state (`event_count = 0`, empty histogram, `last_cwd` and
`last_title` both the string `"?"`). -/
def monitorInit : MonitorState :=
  ⟨0, [], Json.str ("?"), Json.str ("?"), 0⟩

/-- `event_kinds[kind] = event_kinds.get(kind, 0) + 1` on an insertion-ordered
dict: an existing key keeps its position (and its original key object), a new
key is appended at the end. -/
def histUpdate (h : List (Json × Nat)) (k : Json) : List (Json × Nat) :=
  match h with
  | [] => [(k, 1)]
  | (k2, c) :: rest =>
    if scalarKeyEq k2 k then (k2, c + 1) :: rest
    else (k2, c) :: histUpdate rest k

/-- The histogram accumulated by the monitor loop over the kinds of the events
it received. -/
def monitorHist (kinds : List Json) : List (Json × Nat) :=
  kinds.foldl histUpdate []

/-- One stable descending insertion by count.  Python's `sorted` is a stable
sort; a stable insertion sort with the same key (`-count`) produces the
identical output list. -/
def insertDesc (x : Json × Nat) : List (Json × Nat) → List (Json × Nat)
  | [] => [x]
  | y :: ys => if x.2 < y.2 then y :: insertDesc x ys else x :: y :: ys

/-- Stable sort by descending count:
`sorted(event_kinds.items(), key=lambda x: -x[1])`. -/
def sortDesc : List (Json × Nat) → List (Json × Nat)
  | [] => []
  | x :: xs => insertDesc x (sortDesc xs)

/-- The `top_kinds` computation of `update_panel`
(`test_script_observer.py:148`): the histogram sorted by descending count
(stable, so ties keep dict order = first-seen order), truncated to 5. -/
def update_panel_top (h : List (Json × Nat)) : List (Json × Nat) :=
  (sortDesc h).take 5

/-- The keys of a histogram, in dict order. -/
def keysOf (h : List (Json × Nat)) : List Json :=
  h.map Prod.fst

/-- The distinct kinds of an event stream in first-seen order. -/
def firstSeen (kinds : List Json) : List Json :=
  kinds.foldl (fun acc k => if acc.any (fun a => scalarKeyEq a k) then acc else acc ++ [k]) []

/-- One iteration of the `mode_monitor` event loop
(`test_script_observer.py:160-187`).  Attribute and key errors raised by the
Python interpreter on malformed events are `Except.error`.  The emitted
`log`/`set_panel` calls carry no state and are not returned; the panel's
`top_kinds` content is characterized through `update_panel_top`. -/
def monitorStep (st : MonitorState) (event : Json) : Except String MonitorState := do
  let count := st.event_count + 1
  let kind ← jget event ("kind") (Json.str ("unknown"))
  let data ← jget event ("data") (Json.obj [])
  if hashableKey kind then
    let st2 : MonitorState :=
      { st with event_count := count, event_kinds := histUpdate st.event_kinds kind }
    match kind with
    | .str ("cwd_changed") => do
      let c ← jget data ("cwd") (Json.str ("?"))
      pure { st2 with last_cwd := c }
    | .str ("title_changed") => do
      let t ← jget data ("title") (Json.str ("?"))
      pure { st2 with last_title := t }
    | .str ("command_complete") => do
      let _cmd ← jget data ("command") (Json.str (""))
      let code ← jget data ("exit_code") Json.null
      if code matches Json.null then pure st2
      else if pyEqZero code then pure st2
      else pure { st2 with errors := st2.errors + 1 }
    | _ => pure st2
  else .error ("TypeError: unhashable")

/-- Split a character list on a separator, Python `str.split(sep)`: `n`
separators yield `n + 1` groups, empty groups included. -/
def splitOnChar (sep : Char) : List Char → List (List Char)
  | [] => [[]]
  | c :: cs =>
    if c = sep then [] :: splitOnChar sep cs
    else
      match splitOnChar sep cs with
      | [] => [[c]]
      | g :: gs => (c :: g) :: gs

/-- `cwd.split("/")[-1] or "/"` (`test_script_observer.py:212`): the last path
segment of a string, or `"/"` when that segment is empty.  Calling `.split` on
a non-string raises `AttributeError`. -/
def lastPathSegment : Json → Except String String
  | .str s =>
    let seg := String.mk ((splitOnChar '/' s.data).getLastD [])
    .ok (if seg = "" then "/" else seg)
  | _ => .error ("AttributeError: split")

/-- Python `x[:50]`, as used on `value` in the `environment_changed` arm:
defined for strings and lists, `TypeError` otherwise. -/
def pyTake50 : Json → Except String Json
  | .str s => .ok (.str (String.mk (s.data.take 50)))
  | .arr l => .ok (.arr (l.take 50))
  | _ => .error ("TypeError: slice")

/-- Python `l[-10:]`: the last (at most) 10 elements. -/
def pyLastN (n : Nat) (l : List String) : List String :=
  l.drop (l.length - n)

/-- The state of `mode_command` (`test_script_observer.py:198`): the list of
formatted failure entries.  The list itself is unbounded; only the panel
rendering slices it with `[-10:]`. -/
structure CommandState where
  failed_commands : List String

/-- The markdown panel content built at `test_script_observer.py:245-247` from
the failure history: the last (at most) 10 entries. -/
def failPanelContent (fc : List String) : String :=
  "## Recent Failures\n" ++ String.intercalate "\n" ((pyLastN 10 fc).map (fun f => "  - " ++ f))

/-- The `match kind:` dispatch of `mode_command`
(`test_script_observer.py:204-242`): emit the arm's commands (as the JSON
dicts `send` writes, in order) and, for a failed `command_complete`, append
one formatted entry to the failure history. -/
def commandDispatch (st : CommandState) (kind data : Json) :
    Except String (CommandState × List Json) := do
  match kind with
    | .str ("bell_rang") =>
      pure (st, [sendNotify ("Bell") ("Terminal bell was triggered"),
        sendLog ("info") ("Sent notification for bell event")])
    | .str ("cwd_changed") => do
      let cwd ← jget data ("cwd") (Json.str (""))
      let seg ← lastPathSegment cwd
      pure (st, [sendSetVariable ("last_cwd") cwd, sendSetBadge seg,
        sendLog ("info") ("Updated badge and variable for CWD: " ++ pyStrOf cwd)])
    | .str ("command_complete") => do
      let cmd ← jget data ("command") (Json.str (""))
      let code ← jget data ("exit_code") Json.null
      if !(code matches Json.null) && !pyEqZero code then
        pure ({ st with failed_commands :=
            st.failed_commands ++ [pyStrOf cmd ++ " (exit " ++ pyStrOf code ++ ")"] },
          [sendNotify ("Command Failed")
            ("`" ++ pyStrOf cmd ++ "` exited with code " ++ pyStrOf code),
           sendSetBadge ("FAIL:" ++ pyStrOf code),
           sendLog ("error") ("Command failed: " ++ pyStrOf cmd ++ " exit=" ++ pyStrOf code)])
      else if !pyFalsy cmd then
        pure (st, [sendSetBadge ("OK"),
          sendLog ("info") ("Command succeeded: " ++ pyStrOf cmd)])
      else pure (st, [])
    | .str ("title_changed") => do
      let title ← jget data ("title") (Json.str (""))
      pure (st, [sendSetVariable ("last_title") title])
    | .str ("environment_changed") => do
      let key ← jget data ("key") (Json.str (""))
      let value ← jget data ("value") (Json.str (""))
      let v50 ← pyTake50 value
      pure (st, [sendLog ("info") ("Env changed: " ++ pyStrOf key ++ "=" ++ pyStrOf v50)])
    | .str ("user_var_changed") => do
      let name ← jget data ("name") (Json.str (""))
      let value ← jget data ("value") (Json.str (""))
      pure (st, [sendLog ("info") ("User var: " ++ pyStrOf name ++ "=" ++ pyStrOf value)])
    | _ =>
      pure (st, [sendLog ("debug") ("Unhandled event: " ++ pyStrOf kind)])

/-- One iteration of the `mode_command` event loop
(`test_script_observer.py:200-247`): read `kind` and `data`, dispatch, then
re-render the failure panel when the history is non-empty. -/
def commandStep (st : CommandState) (event : Json) : Except String (CommandState × List Json) := do
  let kind ← jget event ("kind") (Json.str ("unknown"))
  let data ← jget event ("data") (Json.obj [])
  let (st2, out) ← commandDispatch st kind data
  if st2.failed_commands.isEmpty then pure (st2, out)
  else pure (st2, out ++ [sendSetPanel ("Failed Commands") (failPanelContent st2.failed_commands)])

/-- The `mode_command` loop folded over a list of already-decoded events,
accumulating the failure history. -/
def commandRun (st : CommandState) : List Json → Except String CommandState
  | [] => .ok st
  | e :: es => do
    let (st2, _) ← commandStep st e
    commandRun st2 es

/-- The per-variant required-field checks of `mode_validate`
(`test_script_observer.py:305-323`): for the six known `data_type` variants,
the variant's required fields must be present in `data`; any other
discriminator (including the `"?"` default) checks nothing. -/
def variantIssues (data_type data : Json) : Except String (List String) :=
  match data_type with
  | .str s =>
    if s = "CwdChanged" then do
      let h ← pyIn ("cwd") data
      pure (if h then [] else ["CwdChanged missing \x27cwd\x27 field"])
    else if s = "CommandComplete" then do
      let h ← pyIn ("command") data
      pure (if h then [] else ["CommandComplete missing \x27command\x27 field"])
    else if s = "TitleChanged" then do
      let h ← pyIn ("title") data
      pure (if h then [] else ["TitleChanged missing \x27title\x27 field"])
    else if s = "SizeChanged" then do
      let h1 ← pyIn ("cols") data
      let h2 ← pyIn ("rows") data
      pure (if h1 && h2 then [] else ["SizeChanged missing \x27cols\x27 or \x27rows\x27"])
    else if s = "VariableChanged" then do
      let h1 ← pyIn ("name") data
      let h2 ← pyIn ("value") data
      pure (if h1 && h2 then [] else ["VariableChanged missing \x27name\x27 or \x27value\x27"])
    else if s = "EnvironmentChanged" then do
      let h1 ← pyIn ("key") data
      let h2 ← pyIn ("value") data
      pure (if h1 && h2 then [] else ["EnvironmentChanged missing \x27key\x27 or \x27value\x27"])
    else pure []
  | _ => pure []

/-- One iteration of the `mode_validate` event loop
(`test_script_observer.py:285-328`), returning the issue list the iteration
reports (joined at warn level when non-empty, debug-level OK otherwise).  The
`fields` echo log of line 290 carries no state and is not modelled. -/
def validateStep (event : Json) : Except String (List String) := do
  let kind ← jget event ("kind") (Json.str ("?"))
  let data ← jget event ("data") (Json.obj [])
  let data_type ← jget data ("data_type") (Json.str ("?"))
  let hasData ← pyIn ("data") event
  let hasDT ← pyIn ("data_type") data
  let issues4 ← variantIssues data_type data
  pure ((if pyFalsy kind then ["missing \x27kind\x27"] else [])
    ++ (if hasData then [] else ["missing \x27data\x27"])
    ++ (if hasDT then [] else ["missing \x27data_type\x27 in data"])
    ++ issues4)

/-- `mode_demo` (`test_script_observer.py:333-403`) up to its observable
reading behavior: one `read_event` call for the trigger; `none` makes the mode
log a warning and return at once (lines 339-341), reading nothing further; a
trigger event has its `kind` read and the remaining input is drained through
`event_stream` (line 397).  The fixed demonstration sequence of the 9 command
emissions carries timestamps and is not returned; the per-drained-event debug
log is likewise not modelled. -/
def mode_demo (input : List String) : Except String (Option (Json × List StreamItem)) := do
  let r ← read_event input
  match r with
  | (none, _) => pure none
  | (some event, rest) => do
    let kind ← jget event ("kind") (Json.str ("unknown"))
    pure (some (kind, event_stream rest))

/-- One interleaved atomic action of `mode_counter`
(`test_coprocess.py:133-157`): the foreground loop receiving a line and
incrementing the counter under the lock, or the background reporter firing and
reading the counter under the lock.  The mutex makes each action atomic, so
every thread interleaving is one such action list. -/
inductive CAct where
  | line
  | tick

/-- Run `mode_counter`'s two tasks over an interleaving, from counter value
`c`: returns the final counter value and the counts captured by the interim
reports, in emission order. -/
def counterRun : List CAct → Nat → Nat × List Nat
  | [], c => (c, [])
  | .line :: r, c => counterRun r (c + 1)
  | .tick :: r, c =>
    let p := counterRun r c
    (p.1, c :: p.2)

/-- Number of received lines in an interleaving. -/
def countLines (acts : List CAct) : Nat :=
  acts.countP (fun a => a matches CAct.line)

/-- Number of reporter ticks in an interleaving. -/
def countTicks (acts : List CAct) : Nat :=
  acts.countP (fun a => a matches CAct.tick)

/-- All counts reported by `mode_counter` on an interleaving, in order: the
interim `[counter] N lines received` reports followed by the final
`[counter] final: N lines` report of the `finally` block
(`test_coprocess.py:156`). -/
def mode_counter (acts : List CAct) : List Nat :=
  (counterRun acts 0).2 ++ [(counterRun acts 0).1]

/-- Strip ANSI escape sequences, `re.sub(r"\x1b\[[0-9;]*[a-zA-Z]", "", line)`
(`test_coprocess.py:163`): fuel-indexed scan replacing leftmost
non-overlapping matches.  The fuel is the input length at the call site; each
step consumes at least one character, so it never runs out. -/
def ansiSubF : Nat → List Char → List Char
  | 0, cs => cs
  | _ + 1, [] => []
  | fuel + 1, c :: cs =>
    if c = '\x1b' then
      match cs with
      | '[' :: cs2 =>
        match cs2.dropWhile (fun d => d.isDigit || d = ';') with
        | l :: rest => if l.isAlpha then ansiSubF fuel rest else c :: ansiSubF fuel cs
        | [] => c :: ansiSubF fuel cs
      | _ => c :: ansiSubF fuel cs
    else c :: ansiSubF fuel cs

/-- Strip ANSI escape sequences from a character list. -/
def ansiSub (cs : List Char) : List Char :=
  ansiSubF cs.length cs

/-- Python `str.lower()` (ASCII; no claim involves non-ASCII case folding). -/
def pyLowerL (cs : List Char) : List Char :=
  cs.map Char.toLower

/-- Python `str.rstrip("\n")`: drop trailing newlines. -/
def rstripNl (cs : List Char) : List Char :=
  (cs.reverse.dropWhile (fun c => c = '\n')).reverse

/-- The keyword list of `mode_alert` (`test_coprocess.py:162`):
`[k.strip().lower() for k in args.keywords.split(",") if k.strip()]`. -/
def parseKeywords (s : String) : List (List Char) :=
  (splitOnChar ',' s.data).filterMap
    (fun k =>
      let t := pyStripChars k
      if t.isEmpty then none else some (pyLowerL t))

/-- The cleaned form of an input line matched by `mode_alert`
(`test_coprocess.py:170`): ANSI-stripped, trailing newlines removed,
lowercased. -/
def cleanLine (line : String) : List Char :=
  pyLowerL (rstripNl (ansiSub line.data))

/-- The keyword loop of `mode_alert` (`test_coprocess.py:171-176`): check the
keywords in list order against the cleaned line; on the first match emit one
alert naming that keyword and `break`.  Returns the keywords the emitted
alerts reference (the alert's timestamp and echoed line are not modelled). -/
def alertScan (clean : List Char) : List (List Char) → List (List Char)
  | [] => []
  | kw :: rest => if containsSub kw clean then [kw] else alertScan clean rest

/-- The alerts `mode_alert` emits for one input line, as the list of matched
keywords they reference. -/
def mode_alert_line (kws : List (List Char)) (line : String) : List (List Char) :=
  alertScan (cleanLine line) kws

/- ------------------------------------------------------------------ -/
/- Supporting lemmas                                                   -/
/- ------------------------------------------------------------------ -/

@[simp] theorem countLines_nil : countLines [] = 0 := rfl

@[simp] theorem countLines_line (r : List CAct) :
    countLines (CAct.line :: r) = countLines r + 1 := by
  simp [countLines, List.countP_cons]

@[simp] theorem countLines_tick (r : List CAct) :
    countLines (CAct.tick :: r) = countLines r := by
  simp [countLines, List.countP_cons]

@[simp] theorem countTicks_nil : countTicks [] = 0 := rfl

@[simp] theorem countTicks_line (r : List CAct) :
    countTicks (CAct.line :: r) = countTicks r := by
  simp [countTicks, List.countP_cons]

@[simp] theorem countTicks_tick (r : List CAct) :
    countTicks (CAct.tick :: r) = countTicks r + 1 := by
  simp [countTicks, List.countP_cons]

theorem counterRun_fst (acts : List CAct) : ∀ c, (counterRun acts c).1 = c + countLines acts := by
  induction acts with
  | nil => intro c; simp [counterRun]
  | cons a r ih =>
    cases a with
    | line => intro c; rw [countLines_line]; simp only [counterRun]; rw [ih]; omega
    | tick => intro c; rw [countLines_tick]; simp only [counterRun]; rw [ih]

theorem counterRun_mem (acts : List CAct) :
    ∀ c r, r ∈ (counterRun acts c).2 → c ≤ r ∧ r ≤ c + countLines acts := by
  induction acts with
  | nil => intro c r h; simp [counterRun] at h
  | cons a rest ih =>
    intro c r h
    cases a with
    | line =>
      simp only [counterRun] at h
      have := ih (c + 1) r h
      rw [countLines_line]
      omega
    | tick =>
      simp only [counterRun, List.mem_cons] at h
      rw [countLines_tick]
      rcases h with h | h
      · omega
      · exact ih c r h

theorem counterRun_pairwise (acts : List CAct) :
    ∀ c, ((counterRun acts c).2).Pairwise (· ≤ ·) := by
  induction acts with
  | nil => intro c; simp [counterRun]
  | cons a rest ih =>
    intro c
    cases a with
    | line => simpa [counterRun] using ih (c + 1)
    | tick =>
      simp only [counterRun, List.pairwise_cons]
      exact ⟨fun r hr => (counterRun_mem rest c r hr).1, ih c⟩

theorem counterRun_len (acts : List CAct) :
    ∀ c, ((counterRun acts c).2).length = countTicks acts := by
  induction acts with
  | nil => intro c; simp [counterRun, countTicks]
  | cons a rest ih =>
    intro c
    cases a with
    | line => simp [counterRun, countTicks, List.countP_cons, ih]
    | tick => simp [counterRun, countTicks, List.countP_cons, ih]

theorem counterRun_report_at (pre : List CAct) :
    ∀ post c, ((counterRun (pre ++ CAct.tick :: post) c).2)[countTicks pre]?
      = some (c + countLines pre) := by
  induction pre with
  | nil => intro post c; simp [counterRun]
  | cons a p ih =>
    intro post c
    cases a with
    | line =>
      rw [countTicks_line, countLines_line]
      simp only [List.cons_append, counterRun]
      rw [show c + (countLines p + 1) = c + 1 + countLines p from by omega]
      exact ih post (c + 1)
    | tick =>
      rw [countTicks_tick, countLines_tick]
      simp only [List.cons_append, counterRun]
      rw [List.getElem?_cons_succ]
      exact ih post c

/- ------------------------------------------------------------------ -/
/- C2: counter-mode report monotonicity                                -/
/- ------------------------------------------------------------------ -/

/-- C2: in counter mode, over every interleaving of line receptions and
reporter ticks, the sequence of reported counts (interim reports followed by
the final report) is monotonically non-decreasing; the report emitted at any
tick carries exactly the number of lines received before that tick (so no
reported count exceeds the true count at the time of the report); and the
final end-of-stream report carries the total number of lines received. -/
theorem counter_reports_monotone (acts : List CAct) :
    ((mode_counter acts).Pairwise (· ≤ ·))
    ∧ (∀ pre post, acts = pre ++ CAct.tick :: post →
        (mode_counter acts)[countTicks pre]? = some (countLines pre))
    ∧ (mode_counter acts).getLast? = some (countLines acts) := by
  refine ⟨?_, ?_, ?_⟩
  · unfold mode_counter
    rw [List.pairwise_append]
    refine ⟨counterRun_pairwise acts 0, by simp, ?_⟩
    intro a ha b hb
    simp only [List.mem_singleton] at hb
    subst hb
    have := counterRun_mem acts 0 a ha
    rw [counterRun_fst acts 0]
    omega
  · intro pre post h
    subst h
    unfold mode_counter
    have hlen : countTicks pre < ((counterRun (pre ++ CAct.tick :: post) 0).2).length := by
      rw [counterRun_len]
      simp [countTicks, List.countP_cons, List.countP_append]
    rw [List.getElem?_append_left hlen]
    simpa using counterRun_report_at pre post 0
  · unfold mode_counter
    rw [List.getLast?_concat]
    rw [counterRun_fst acts 0]
    simp

/-- Witness for `counter_reports_monotone`: on the interleaving
line-tick-line, the report at the single tick carries count 1 (the one line
received before it) and the final report carries 2. -/
theorem counter_reports_monotone_witness :
    (mode_counter [CAct.line, CAct.tick, CAct.line])[countTicks [CAct.line]]?
      = some (countLines [CAct.line]) :=
  (counter_reports_monotone [CAct.line, CAct.tick, CAct.line]).2.1 [CAct.line] [CAct.line] rfl

/- ------------------------------------------------------------------ -/
/- C7: alert mode emits at most one alert per line, first match wins   -/
/- ------------------------------------------------------------------ -/

theorem alertScan_length (clean : List Char) :
    ∀ kws, (alertScan clean kws).length ≤ 1 := by
  intro kws
  induction kws with
  | nil => simp [alertScan]
  | cons kw rest ih =>
    simp only [alertScan]
    split
    · simp
    · exact ih

theorem alertScan_first_match (clean : List Char) :
    ∀ kws k, alertScan clean kws = [k] →
      ∃ pre post, kws = pre ++ k :: post ∧ containsSub k clean = true
        ∧ ∀ k2 ∈ pre, containsSub k2 clean = false := by
  intro kws
  induction kws with
  | nil => intro k h; simp [alertScan] at h
  | cons kw rest ih =>
    intro k h
    simp only [alertScan] at h
    by_cases hm : containsSub kw clean
    · rw [if_pos hm] at h
      obtain rfl : kw = k := by simpa using h
      exact ⟨[], rest, rfl, hm, by simp⟩
    · rw [if_neg hm] at h
      obtain ⟨pre, post, hsplit, hk, hpre⟩ := ih k h
      refine ⟨kw :: pre, post, by simp [hsplit], hk, ?_⟩
      intro k2 hk2
      rcases List.mem_cons.mp hk2 with rfl | hk2
      · simpa using hm
      · exact hpre k2 hk2

/-- C7: in alert mode each input line emits at most one alert; when an alert
is emitted it references the first keyword, in configured list order, whose
ANSI-stripped case-insensitive match succeeds, and no earlier keyword matches;
and on keywords `error,panic` the line `"system panic detected"` emits exactly
one alert, referencing `panic`. -/
theorem alert_first_match_wins :
    (∀ kws line, (mode_alert_line kws line).length ≤ 1)
    ∧ (∀ kws line k, mode_alert_line kws line = [k] →
        ∃ pre post, kws = pre ++ k :: post ∧ containsSub k (cleanLine line) = true
          ∧ ∀ k2 ∈ pre, containsSub k2 (cleanLine line) = false)
    ∧ mode_alert_line (parseKeywords ("error,panic")) ("system panic detected")
        = [String.data ("panic")] := by
  refine ⟨?_, ?_, rfl⟩
  · intro kws line
    exact alertScan_length (cleanLine line) kws
  · intro kws line k h
    exact alertScan_first_match (cleanLine line) kws k h

/-- Witness for `alert_first_match_wins`: instantiating the first-match clause
on the concrete scenario shows `panic` is preceded only by the non-matching
keyword `error`. -/
theorem alert_first_match_wins_witness :
    ∃ pre post, parseKeywords ("error,panic") = pre ++ (String.data ("panic")) :: post
      ∧ containsSub (String.data ("panic")) (cleanLine ("system panic detected")) = true
      ∧ ∀ k2 ∈ pre, containsSub k2 (cleanLine ("system panic detected")) = false :=
  alert_first_match_wins.2.1 (parseKeywords ("error,panic")) ("system panic detected")
    (String.data ("panic")) rfl

/- ------------------------------------------------------------------ -/
/- C8: Command-side round trip                                         -/
/- ------------------------------------------------------------------ -/

/-- C8: for every Command value of the 9 variants, parsing the line the
command sink emits (modelled at the JSON-value level, `json.dumps`/`json.loads`
being mutually inverse on these dicts) reconstructs the same variant tag and
the same field values. -/
theorem command_roundtrip (c : Command) : decode_as_command (encodeCommand c) = some c := by
  cases c <;> rfl

/- ------------------------------------------------------------------ -/
/- C9: non-object events are yielded, then crash the mode engines      -/
/- ------------------------------------------------------------------ -/

/-- C9: decoding accepts any valid JSON value, not only objects: the line
`42` is yielded by the event source as the event `42`, and the subsequent
`event.get` field access in monitor mode and in validate mode raises an
unhandled `AttributeError` (an `Except.error` that is neither a reported
`DecodeError` nor a `ValidationIssue` list). -/
theorem nonobject_event_crashes_engines :
    event_stream [ "42" ] = [StreamItem.ev (Json.num 42)]
    ∧ monitorStep monitorInit (Json.num 42) = .error ("AttributeError: get")
    ∧ validateStep (Json.num 42) = .error ("AttributeError: get") :=
  ⟨rfl, rfl, rfl⟩

/- ------------------------------------------------------------------ -/
/- C1: decode-failure handling on the two event-reading paths          -/
/- ------------------------------------------------------------------ -/

/-- C1 counterexample: the claim that a malformed line is reported and
iteration continues "on every event-reading path, including the single-event
read used by demo mode" is false: on the input `not json` followed by a valid
event line, demo mode propagates the decode failure (caught only by the
top-level handler, which logs it and exits the mode) and never processes the
valid line, while the streaming path on the same input reports the error and
continues. -/
theorem demo_decode_raises_counterexample :
    mode_demo [ "not json", "\x7b\"kind\": \"bell_rang\"\x7d" ] = .error ("Invalid JSON")
    ∧ event_stream [ "not json", "\x7b\"kind\": \"bell_rang\"\x7d" ]
        = [StreamItem.decodeErr ("Invalid JSON"),
           StreamItem.ev (Json.obj [("kind", Json.str ("bell_rang"))])] :=
  ⟨rfl, rfl⟩

/-- C1 as amended: decoding itself is total (`json_loads` returns a value or a
decode error for every string); on the streaming path (`event_stream`) a
malformed line yields no event, produces exactly one side-channel error
report, and iteration continues with the next line; but on the single-event
read path (`read_event`, used by demo mode) the decode error propagates as a
raised exception instead of being reported-and-skipped. -/
theorem decode_error_handling_amended :
    (∀ pre b post e, pyStrip b ≠ "" → json_loads (pyStrip b) = .error e →
        event_stream (pre ++ b :: post)
          = event_stream pre ++ StreamItem.decodeErr e :: event_stream post)
    ∧ (∀ b rest e, pyStrip b ≠ "" → json_loads (pyStrip b) = .error e →
        read_event (b :: rest) = .error e) := by
  constructor
  · intro pre b post e hb hjs
    induction pre with
    | nil => simp [event_stream, hb, hjs]
    | cons l pre ih =>
      by_cases hl : pyStrip l = ""
      · simp only [List.cons_append, event_stream, hl, if_pos rfl]
        simpa [event_stream, hl] using ih
      · cases hjl : json_loads (pyStrip l) with
        | ok j => simp [event_stream, hl, hjl] at ih ⊢; exact ih
        | error e2 => simp [event_stream, hl, hjl] at ih ⊢; exact ih
  · intro b rest e hb hjs
    simp [read_event, hb, hjs]

/-- Witness for `decode_error_handling_amended` at a concrete malformed middle
line. -/
theorem decode_error_handling_amended_witness :
    (event_stream [ "true", "not json", "false" ]
      = event_stream [ "true" ] ++ StreamItem.decodeErr ("Invalid JSON") :: event_stream [ "false" ])
    ∧ read_event [ "not json", "false" ] = .error ("Invalid JSON") :=
  ⟨decode_error_handling_amended.1 [ "true" ] ("not json") [ "false" ] ("Invalid JSON")
      (by decide) rfl,
   decode_error_handling_amended.2 ("not json") [ "false" ] ("Invalid JSON") (by decide) rfl⟩

/- ------------------------------------------------------------------ -/
/- C5: blank-line handling on the two event-reading paths              -/
/- ------------------------------------------------------------------ -/

/-- C5 counterexample: the claim that a blank line is skipped and "subsequent
lines are still processed" in every event-reading mode is false for demo
mode: a whitespace-only first line makes `read_event` return `None`, which
demo mode cannot distinguish from end-of-stream, so it logs "stdin closed
immediately" and stops — the valid event line after the blank one is never
processed (the same stream without the blank line does yield it). -/
theorem demo_blank_line_counterexample :
    mode_demo [ "   ", "\x7b\"kind\": \"bell_rang\"\x7d" ] = .ok none
    ∧ event_stream [ "\x7b\"kind\": \"bell_rang\"\x7d" ]
        = [StreamItem.ev (Json.obj [("kind", Json.str ("bell_rang"))])] :=
  ⟨rfl, rfl⟩

/-- C5 as amended: on the streaming path a blank or whitespace-only line is
skipped — no event, no error, and the rest of the stream is processed
unchanged; on the single-event read path (`read_event`, used by demo mode) a
blank line returns `none` exactly as end-of-stream does, so demo mode
terminates its wait instead of skipping the line. -/
theorem blank_line_handling_amended :
    (∀ pre b post, pyStrip b = "" →
        event_stream (pre ++ b :: post) = event_stream pre ++ event_stream post)
    ∧ (∀ b rest, pyStrip b = "" → read_event (b :: rest) = .ok (none, rest)) := by
  constructor
  · intro pre b post hb
    induction pre with
    | nil => simp [event_stream, hb]
    | cons l pre ih =>
      by_cases hl : pyStrip l = ""
      · simpa [event_stream, hl] using ih
      · cases hjl : json_loads (pyStrip l) with
        | ok j => simp [event_stream, hl, hjl] at ih ⊢; exact ih
        | error e2 => simp [event_stream, hl, hjl] at ih ⊢; exact ih
  · intro b rest hb
    simp [read_event, hb]

/-- Witness for `blank_line_handling_amended` at a concrete whitespace-only
middle line. -/
theorem blank_line_handling_amended_witness :
    (event_stream [ "true", "  ", "false" ] = event_stream [ "true" ] ++ event_stream [ "false" ])
    ∧ read_event [ "  ", "false" ] = .ok (none, [ "false" ]) :=
  ⟨blank_line_handling_amended.1 [ "true" ] ("  ") [ "false" ] rfl,
   blank_line_handling_amended.2 ("  ") [ "false" ] rfl⟩

/- ------------------------------------------------------------------ -/
/- C6: command-mode failure history                                    -/
/- ------------------------------------------------------------------ -/

theorem except_bind_ok {α β : Type} {x : Except String α} {f : α → Except String β} {b : β}
    (h : x >>= f = .ok b) : ∃ a, x = .ok a ∧ f a = .ok b := by
  cases x with
  | error e =>
    simp only [Bind.bind, Except.bind] at h
    exact Except.noConfusion h
  | ok a => exact ⟨a, rfl, by simpa only [Bind.bind, Except.bind] using h⟩

theorem pyLastN_length_le (n : Nat) (l : List String) : (pyLastN n l).length ≤ n := by
  simp only [pyLastN, List.length_drop]
  omega

theorem commandDispatch_failed (st : CommandState) (kind data : Json)
    (p : CommandState × List Json) (h : commandDispatch st kind data = .ok p) :
    p.1.failed_commands = st.failed_commands
      ∨ ∃ x, p.1.failed_commands = st.failed_commands ++ [x] := by
  unfold commandDispatch at h
  split at h
  · obtain rfl : p = (st, _) := by simpa [pure, Except.pure, eq_comm] using h
    exact Or.inl rfl
  · obtain ⟨cwd, h1, h⟩ := except_bind_ok h
    obtain ⟨seg, h2, h⟩ := except_bind_ok h
    obtain rfl : p = (st, _) := by simpa [pure, Except.pure, eq_comm] using h
    exact Or.inl rfl
  · obtain ⟨cmd, h1, h⟩ := except_bind_ok h
    obtain ⟨code, h2, h⟩ := except_bind_ok h
    split at h
    · obtain rfl : p = (_, _) := by simpa [pure, Except.pure, eq_comm] using h
      exact Or.inr ⟨_, rfl⟩
    · split at h
      · obtain rfl : p = (st, _) := by simpa [pure, Except.pure, eq_comm] using h
        exact Or.inl rfl
      · obtain rfl : p = (st, _) := by simpa [pure, Except.pure, eq_comm] using h
        exact Or.inl rfl
  · obtain ⟨title, h1, h⟩ := except_bind_ok h
    obtain rfl : p = (st, _) := by simpa [pure, Except.pure, eq_comm] using h
    exact Or.inl rfl
  · obtain ⟨key, h1, h⟩ := except_bind_ok h
    obtain ⟨value, h2, h⟩ := except_bind_ok h
    obtain ⟨v50, h3, h⟩ := except_bind_ok h
    obtain rfl : p = (st, _) := by simpa [pure, Except.pure, eq_comm] using h
    exact Or.inl rfl
  · obtain ⟨name, h1, h⟩ := except_bind_ok h
    obtain ⟨value, h2, h⟩ := except_bind_ok h
    obtain rfl : p = (st, _) := by simpa [pure, Except.pure, eq_comm] using h
    exact Or.inl rfl
  · obtain rfl : p = (st, _) := by simpa [pure, Except.pure, eq_comm] using h
    exact Or.inl rfl

/-- C6 counterexample: the claim that the stored failure history holds at most
10 entries at every point is false: after 11 failing `command_complete`
events, `failed_commands` holds 11 entries (only the panel display is sliced
to the last 10). -/
theorem failure_history_unbounded_counterexample :
    commandRun ⟨[]⟩ (List.replicate 11
        (Json.obj [("kind", Json.str ("command_complete")),
          ("data", Json.obj [("data_type", Json.str ("CommandComplete")),
            ("command", Json.str ("x")), ("exit_code", Json.num 1)])]))
      = .ok ⟨List.replicate 11 ("x (exit 1)")⟩
    ∧ 10 < (List.replicate 11 ("x (exit 1)")).length :=
  ⟨rfl, by simp⟩

/-- C6 as amended: each `command_complete` event with a non-zero, non-null
exit code appends exactly one entry to the stored failure history, which is
unbounded (append-only across a step, growing by at most one); what is capped
at 10 is the panel rendering, which slices the last 10 entries
(`failed_commands[-10:]`) and therefore shows at most 10 at every point. -/
theorem command_failure_history_amended (st : CommandState) (ev : Json)
    (st2 : CommandState) (out : List Json) (h : commandStep st ev = .ok (st2, out)) :
    (st.failed_commands <+: st2.failed_commands)
    ∧ st2.failed_commands.length ≤ st.failed_commands.length + 1
    ∧ (pyLastN 10 st2.failed_commands).length ≤ 10 := by
  unfold commandStep at h
  obtain ⟨kind, hk, h⟩ := except_bind_ok h
  obtain ⟨data, hd, h⟩ := except_bind_ok h
  obtain ⟨p, hp, h⟩ := except_bind_ok h
  have hst2 : st2 = p.1 := by
    rcases p with ⟨st2p, outp⟩
    simp only at h
    split at h
    · obtain ⟨h1, h2⟩ : st2p = st2 ∧ outp = out := by
        simpa [pure, Except.pure] using h
      exact h1.symm
    · obtain ⟨h1, h2⟩ :
          st2p = st2 ∧ outp ++ [sendSetPanel ("Failed Commands")
            (failPanelContent st2p.failed_commands)] = out := by
        simpa [pure, Except.pure] using h
      exact h1.symm
  subst hst2
  rcases commandDispatch_failed st kind data p hp with heq | ⟨x, heq⟩
  · rw [heq]
    exact ⟨List.prefix_refl _, by omega, pyLastN_length_le 10 _⟩
  · rw [heq]
    refine ⟨List.prefix_append _ _, by simp, pyLastN_length_le 10 _⟩

/-- Witness for `command_failure_history_amended` at a concrete failing
event. -/
theorem command_failure_history_amended_witness :
    ([ "a (exit 2)" ] : List String) <+: [ "a (exit 2)", "b (exit 1)" ]
    ∧ ([ "a (exit 2)", "b (exit 1)" ] : List String).length ≤ [ "a (exit 2)" ].length + 1
    ∧ (pyLastN 10 [ "a (exit 2)", "b (exit 1)" ]).length ≤ 10 :=
  command_failure_history_amended ⟨[ "a (exit 2)" ]⟩
    (Json.obj [("kind", Json.str ("command_complete")),
      ("data", Json.obj [("command", Json.str ("b")), ("exit_code", Json.num 1)])])
    ⟨[ "a (exit 2)", "b (exit 1)" ]⟩
    [sendNotify ("Command Failed") ("`b` exited with code 1"),
     sendSetBadge ("FAIL:1"),
     sendLog ("error") ("Command failed: b exit=1"),
     sendSetPanel ("Failed Commands")
       (failPanelContent [ "a (exit 2)", "b (exit 1)" ])]
    rfl

/- ------------------------------------------------------------------ -/
/- C10: events without a kind field default to the unknown path        -/
/- ------------------------------------------------------------------ -/

/-- C10: an event object lacking a `kind` field entirely is not rejected:
monitor mode counts it in the histogram under the default kind `"unknown"`
and continues, and command mode dispatches it to the catch-all arm, emitting
one debug-level `Log` ("Unhandled event: unknown") and leaving its state
unchanged. -/
theorem unknown_kind_handled (fs : List (String × Json)) (mst : MonitorState)
    (cst : CommandState) (h : fs.lookup ("kind") = none) :
    monitorStep mst (Json.obj fs)
      = .ok { mst with
          event_count := mst.event_count + 1,
          event_kinds := histUpdate mst.event_kinds (Json.str ("unknown")) }
    ∧ commandStep cst (Json.obj fs)
      = .ok (cst, [sendLog ("debug") ("Unhandled event: unknown")]
          ++ (if cst.failed_commands.isEmpty then []
              else [sendSetPanel ("Failed Commands") (failPanelContent cst.failed_commands)])) := by
  have hk : jget (Json.obj fs) ("kind") (Json.str ("unknown")) = .ok (Json.str ("unknown")) := by
    simp [jget, h]
  constructor
  · simp only [monitorStep, hk, Bind.bind, Except.bind]
    rfl
  · have hdata : jget (Json.obj fs) ("data") (Json.obj [])
        = .ok ((fs.lookup ("data")).getD (Json.obj [])) := rfl
    have hd : commandDispatch cst (Json.str ("unknown"))
        ((fs.lookup ("data")).getD (Json.obj []))
        = .ok (cst, [sendLog ("debug") ("Unhandled event: unknown")]) := rfl
    simp only [commandStep, hk, hdata, Bind.bind, Except.bind]
    rw [hd]
    dsimp only
    by_cases hE : cst.failed_commands.isEmpty
    · simp only [hE, if_true, if_pos]
      simp
      rfl
    · simp only [hE, if_false]
      simp [hE]
      rfl

/-- Witness for `unknown_kind_handled` at a concrete kind-less event. -/
theorem unknown_kind_handled_witness :
    monitorStep monitorInit (Json.obj [("data", Json.obj [])])
      = .ok { monitorInit with
          event_count := 1,
          event_kinds := histUpdate [] (Json.str ("unknown")) }
    ∧ commandStep ⟨[]⟩ (Json.obj [("data", Json.obj [])])
      = .ok (⟨[]⟩, [sendLog ("debug") ("Unhandled event: unknown")]
          ++ (if (List.isEmpty ([] : List String)) then []
              else [sendSetPanel ("Failed Commands") (failPanelContent [])])) :=
  unknown_kind_handled [("data", Json.obj [])] monitorInit ⟨[]⟩ rfl

/- ------------------------------------------------------------------ -/
/- C3: validate-mode issue condition                                   -/
/- ------------------------------------------------------------------ -/

/-- The data dict validate mode works with for an event object: the value of
its `data` key when that is a dict, the `.get` default empty dict when the key
is absent. -/
def dsOf (fs : List (String × Json)) : List (String × Json) :=
  match fs.lookup ("data") with
  | some (.obj ds) => ds
  | _ => []

/-- The pure issue list produced by the `match data_type:` block of
`mode_validate` when `data` is the dict `ds`. -/
def variantList (dt : Json) (ds : List (String × Json)) : List String :=
  match dt with
  | .str s =>
    if s = "CwdChanged" then
      if (ds.lookup ("cwd")).isSome then [] else ["CwdChanged missing \x27cwd\x27 field"]
    else if s = "CommandComplete" then
      if (ds.lookup ("command")).isSome then [] else ["CommandComplete missing \x27command\x27 field"]
    else if s = "TitleChanged" then
      if (ds.lookup ("title")).isSome then [] else ["TitleChanged missing \x27title\x27 field"]
    else if s = "SizeChanged" then
      if (ds.lookup ("cols")).isSome && (ds.lookup ("rows")).isSome then []
      else ["SizeChanged missing \x27cols\x27 or \x27rows\x27"]
    else if s = "VariableChanged" then
      if (ds.lookup ("name")).isSome && (ds.lookup ("value")).isSome then []
      else ["VariableChanged missing \x27name\x27 or \x27value\x27"]
    else if s = "EnvironmentChanged" then
      if (ds.lookup ("key")).isSome && (ds.lookup ("value")).isSome then []
      else ["EnvironmentChanged missing \x27key\x27 or \x27value\x27"]
    else []
  | _ => []

/-- Whether a required field of one of the six known `data_type` variants is
missing (the last disjunct of the claim's issue condition, which the code
realizes faithfully). -/
def variantCond (dt : Json) (ds : List (String × Json)) : Bool :=
  match dt with
  | .str s =>
    (s == "CwdChanged" && ((ds.lookup ("cwd")).isNone))
    || (s == "CommandComplete" && ((ds.lookup ("command")).isNone))
    || (s == "TitleChanged" && ((ds.lookup ("title")).isNone))
    || (s == "SizeChanged" && (((ds.lookup ("cols")).isNone) || ((ds.lookup ("rows")).isNone)))
    || (s == "VariableChanged" && (((ds.lookup ("name")).isNone) || ((ds.lookup ("value")).isNone)))
    || (s == "EnvironmentChanged" && (((ds.lookup ("key")).isNone) || ((ds.lookup ("value")).isNone)))
  | _ => false

/-- The amended claim's issue condition, stated from the amended claim's
words: validate mode reports an issue iff the event has a `kind` key holding a
falsy value (an absent `kind` is replaced by the truthy default `"?"` and is
not flagged), or the event has no `data` key, or the data dict has no
`data_type` key, or the `data_type` names one of the six known variants and a
required field of that variant is missing. -/
def claimIssueCond (fs : List (String × Json)) : Bool :=
  (match fs.lookup ("kind") with
   | some v => pyFalsy v
   | none => false)
  || ((fs.lookup ("data")).isNone)
  || (((dsOf fs).lookup ("data_type")).isNone)
  || variantCond (((dsOf fs).lookup ("data_type")).getD (Json.str ("?"))) (dsOf fs)

theorem variantIssues_obj (dt : Json) (ds : List (String × Json)) :
    variantIssues dt (Json.obj ds) = .ok (variantList dt ds) := by
  cases dt with
  | str s =>
    simp only [variantIssues, variantList]
    by_cases h1 : s = "CwdChanged"
    · subst h1; rfl
    simp only [if_neg h1]
    by_cases h2 : s = "CommandComplete"
    · subst h2; rfl
    simp only [if_neg h2]
    by_cases h3 : s = "TitleChanged"
    · subst h3; rfl
    simp only [if_neg h3]
    by_cases h4 : s = "SizeChanged"
    · subst h4; rfl
    simp only [if_neg h4]
    by_cases h5 : s = "VariableChanged"
    · subst h5; rfl
    simp only [if_neg h5]
    by_cases h6 : s = "EnvironmentChanged"
    · subst h6; rfl
    simp only [if_neg h6]
    rfl
  | null => rfl
  | bool b => rfl
  | num n => rfl
  | arr l => rfl
  | obj l => rfl

theorem variantList_empty (dt : Json) (ds : List (String × Json)) :
    (variantList dt ds).isEmpty = !variantCond dt ds := by
  cases dt with
  | str s =>
    simp only [variantList, variantCond]
    by_cases h1 : s = "CwdChanged"
    · subst h1
      cases hc : List.lookup ("cwd") ds <;> simp [hc]
    simp only [if_neg h1]
    have e1 : (s == "CwdChanged") = false := beq_eq_false_iff_ne.mpr h1
    by_cases h2 : s = "CommandComplete"
    · subst h2
      cases hc : List.lookup ("command") ds <;> simp [hc]
    simp only [if_neg h2]
    have e2 : (s == "CommandComplete") = false := beq_eq_false_iff_ne.mpr h2
    by_cases h3 : s = "TitleChanged"
    · subst h3
      cases hc : List.lookup ("title") ds <;> simp [hc]
    simp only [if_neg h3]
    have e3 : (s == "TitleChanged") = false := beq_eq_false_iff_ne.mpr h3
    by_cases h4 : s = "SizeChanged"
    · subst h4
      cases hc1 : List.lookup ("cols") ds <;> cases hc2 : List.lookup ("rows") ds <;>
        simp [hc1, hc2]
    simp only [if_neg h4]
    have e4 : (s == "SizeChanged") = false := beq_eq_false_iff_ne.mpr h4
    by_cases h5 : s = "VariableChanged"
    · subst h5
      cases hc1 : List.lookup ("name") ds <;> cases hc2 : List.lookup ("value") ds <;>
        simp [hc1, hc2]
    simp only [if_neg h5]
    have e5 : (s == "VariableChanged") = false := beq_eq_false_iff_ne.mpr h5
    by_cases h6 : s = "EnvironmentChanged"
    · subst h6
      cases hc1 : List.lookup ("key") ds <;> cases hc2 : List.lookup ("value") ds <;>
        simp [hc1, hc2]
    simp only [if_neg h6]
    have e6 : (s == "EnvironmentChanged") = false := beq_eq_false_iff_ne.mpr h6
    simp [e1, e2, e3, e4, e5, e6]
  | null => rfl
  | bool b => rfl
  | num n => rfl
  | arr l => rfl
  | obj l => rfl

theorem variantList_eq_nil (dt : Json) (ds : List (String × Json)) :
    variantList dt ds = [] ↔ variantCond dt ds = false := by
  have h := variantList_empty dt ds
  cases hvc : variantCond dt ds <;> rw [hvc] at h <;> simp at h <;> simp [h]

/-- C3 counterexample: the claim says an issue is reported when `kind` is
absent, but validate mode replaces an absent `kind` with the truthy default
`"?"` and reports no issue: this event has no `kind` key, yet its issue list
is empty. -/
theorem validate_absent_kind_counterexample :
    validateStep (Json.obj [("data", Json.obj [("data_type", Json.str ("Bell"))])]) = .ok []
    ∧ List.lookup ("kind") [("data", Json.obj [("data_type", Json.str ("Bell"))])]
        = (none : Option Json) :=
  ⟨rfl, rfl⟩

/-- C3 as amended: for every event object whose `data` key is absent or holds
a dict, validate mode reports an issue if and only if the event has a `kind`
key with a falsy value (an absent `kind` defaults to `"?"` and is not
flagged), or `data` is absent, or `data_type` is absent from the data dict, or
the `data_type` is one of the six known variants and a required field of that
variant is missing; in particular a `CommandComplete` event with `command`
present but `exit_code` omitted yields no issue. -/
theorem validate_issue_condition_amended (fs : List (String × Json))
    (hdata : fs.lookup ("data") = none ∨ ∃ ds, fs.lookup ("data") = some (Json.obj ds)) :
    (∃ issues, validateStep (Json.obj fs) = .ok issues
      ∧ (issues = [] ↔ claimIssueCond fs = false))
    ∧ validateStep (Json.obj [("kind", Json.str ("command_complete")),
        ("data", Json.obj [("data_type", Json.str ("CommandComplete")),
          ("command", Json.str ("ls"))])]) = .ok [] := by
  have hdget2 : (fs.lookup ("data")).getD (Json.obj []) = Json.obj (dsOf fs) := by
    rcases hdata with h0 | ⟨ds, h0⟩ <;> simp [dsOf, h0]
  refine ⟨⟨(if pyFalsy ((fs.lookup ("kind")).getD (Json.str ("?"))) then ["missing \x27kind\x27"] else [])
      ++ (if (fs.lookup ("data")).isSome then [] else ["missing \x27data\x27"])
      ++ (if ((dsOf fs).lookup ("data_type")).isSome then [] else ["missing \x27data_type\x27 in data"])
      ++ variantList (((dsOf fs).lookup ("data_type")).getD (Json.str ("?"))) (dsOf fs),
    ?_, ?_⟩, rfl⟩
  · simp only [validateStep, jget, hdget2, pyIn, Bind.bind, Except.bind, pure, Except.pure,
      variantIssues_obj]
  · simp only [claimIssueCond, List.append_eq_nil, variantList_eq_nil]
    cases hk : fs.lookup ("kind") <;>
      cases hd : fs.lookup ("data") <;>
        cases hdt : List.lookup ("data_type") (dsOf fs) <;>
          by_cases hvc : variantCond (((dsOf fs).lookup ("data_type")).getD
            (Json.str ("?"))) (dsOf fs) <;>
            simp_all [pyFalsy]

/-- Witness for `validate_issue_condition_amended` at a concrete event whose
`kind` is present but empty (falsy) and whose `CwdChanged` data is missing its
`cwd` field. -/
theorem validate_issue_condition_amended_witness :
    (∃ issues, validateStep (Json.obj [("kind", Json.str ("")),
        ("data", Json.obj [("data_type", Json.str ("CwdChanged"))])]) = .ok issues
      ∧ (issues = [] ↔ claimIssueCond [("kind", Json.str ("")),
          ("data", Json.obj [("data_type", Json.str ("CwdChanged"))])] = false))
    ∧ validateStep (Json.obj [("kind", Json.str ("command_complete")),
        ("data", Json.obj [("data_type", Json.str ("CommandComplete")),
          ("command", Json.str ("ls"))])]) = .ok [] :=
  validate_issue_condition_amended
    [("kind", Json.str ("")), ("data", Json.obj [("data_type", Json.str ("CwdChanged"))])]
    (Or.inr ⟨[("data_type", Json.str ("CwdChanged"))], rfl⟩)

/- ------------------------------------------------------------------ -/
/- C4: monitor top-5 listing, stability of the sort                    -/
/- ------------------------------------------------------------------ -/

theorem mem_insertDesc {x y : Json × Nat} : ∀ {l : List (Json × Nat)},
    y ∈ insertDesc x l ↔ y = x ∨ y ∈ l := by
  intro l
  induction l with
  | nil => simp [insertDesc]
  | cons z zs ih =>
    simp only [insertDesc]
    split
    · simp only [List.mem_cons, ih]
      try tauto
    · simp only [List.mem_cons]
      try tauto

theorem pairwise_ge_insertDesc {x : Json × Nat} : ∀ {l : List (Json × Nat)},
    l.Pairwise (fun a b => b.2 ≤ a.2) → (insertDesc x l).Pairwise (fun a b => b.2 ≤ a.2) := by
  intro l
  induction l with
  | nil => intro _; simp [insertDesc]
  | cons z zs ih =>
    intro h
    rw [List.pairwise_cons] at h
    obtain ⟨hz, hzs⟩ := h
    simp only [insertDesc]
    split
    · rw [List.pairwise_cons]
      refine ⟨?_, ih hzs⟩
      intro b hb
      rcases mem_insertDesc.mp hb with rfl | hb
      · omega
      · exact hz b hb
    · rw [List.pairwise_cons]
      refine ⟨?_, List.pairwise_cons.mpr ⟨hz, hzs⟩⟩
      intro b hb
      rcases List.mem_cons.mp hb with rfl | hb
      · omega
      · have := hz b hb
        omega

theorem sortDesc_sorted : ∀ l : List (Json × Nat),
    (sortDesc l).Pairwise (fun a b => b.2 ≤ a.2)
  | [] => by simp [sortDesc]
  | x :: xs => by
    simp only [sortDesc]
    exact pairwise_ge_insertDesc (sortDesc_sorted xs)

theorem mem_sortDesc {y : Json × Nat} : ∀ {l : List (Json × Nat)},
    y ∈ sortDesc l ↔ y ∈ l := by
  intro l
  induction l with
  | nil => simp [sortDesc]
  | cons x xs ih => simp [sortDesc, mem_insertDesc, ih]

theorem pair_sublist_insertDesc {a b x : Json × Nat} : ∀ {l : List (Json × Nat)},
    [a, b] <+ insertDesc x l → a.2 = b.2 → [a, b] <+ x :: l := by
  intro l
  induction l with
  | nil =>
    intro h _
    simp only [insertDesc] at h
    have := h.length_le
    simp at this
  | cons y ys ih =>
    intro h hab
    simp only [insertDesc] at h
    split at h
    · cases h with
      | cons _ h2 =>
        have h3 := ih h2 hab
        exact h3.trans (List.Sublist.cons₂ _ (List.sublist_cons_self _ _))
      | cons₂ _ h2 =>
        have hb := List.singleton_sublist.mp h2
        rcases mem_insertDesc.mp hb with rfl | hb2
        · omega
        · exact List.Sublist.cons _ (List.Sublist.cons₂ _ (List.singleton_sublist.mpr hb2))
    · exact h

theorem pair_sublist_sortDesc {a b : Json × Nat} : ∀ {l : List (Json × Nat)},
    [a, b] <+ sortDesc l → a.2 = b.2 → [a, b] <+ l := by
  intro l
  induction l with
  | nil =>
    intro h _
    simp [sortDesc] at h
  | cons x xs ih =>
    intro h hab
    simp only [sortDesc] at h
    have h2 := pair_sublist_insertDesc h hab
    cases h2 with
    | cons _ h3 => exact List.Sublist.cons _ (ih h3 hab)
    | cons₂ _ h3 =>
      have hb := mem_sortDesc.mp (List.singleton_sublist.mp h3)
      exact List.Sublist.cons₂ _ (List.singleton_sublist.mpr hb)

theorem keysOf_histUpdate (h : List (Json × Nat)) (k : Json) :
    keysOf (histUpdate h k)
      = if (keysOf h).any (fun a => scalarKeyEq a k) then keysOf h
        else keysOf h ++ [k] := by
  induction h with
  | nil => simp [histUpdate, keysOf]
  | cons p rest ih =>
    obtain ⟨k2, c⟩ := p
    simp only [histUpdate, keysOf, List.map_cons, List.any_cons]
    split
    · rename_i he
      simp [keysOf, he]
    · rename_i he
      simp only [keysOf] at ih
      simp only [he, Bool.false_or, List.map_cons]
      rw [ih]
      split <;> simp

theorem keysOf_foldl (kinds : List Json) : ∀ h : List (Json × Nat),
    keysOf (kinds.foldl histUpdate h)
      = kinds.foldl
          (fun acc k => if acc.any (fun a => scalarKeyEq a k) then acc else acc ++ [k])
          (keysOf h) := by
  induction kinds with
  | nil => intro h; simp
  | cons k ks ih =>
    intro h
    simp only [List.foldl_cons]
    rw [ih, keysOf_histUpdate]

theorem keysOf_monitorHist (kinds : List Json) :
    keysOf (monitorHist kinds) = firstSeen kinds := by
  simpa [monitorHist, firstSeen, keysOf] using keysOf_foldl kinds []

/-- C4: the monitor panel's `top_kinds` listing is the histogram stably sorted
by descending count and truncated to 5: counts along the listing are
non-increasing; any two listed entries with equal counts appear in histogram
(= first-seen) order; every histogram entry left out of the listing has a
count no larger than any listed one; and the histogram's key order is exactly
the first-seen order of the event kinds. -/
theorem monitor_top5_order (kinds : List Json) :
    ((update_panel_top (monitorHist kinds)).Pairwise (fun a b => b.2 ≤ a.2))
    ∧ (∀ a b, [a, b] <+ update_panel_top (monitorHist kinds) → a.2 = b.2 →
        [a, b] <+ monitorHist kinds)
    ∧ (∀ p ∈ monitorHist kinds, p ∉ update_panel_top (monitorHist kinds) →
        ∀ q ∈ update_panel_top (monitorHist kinds), p.2 ≤ q.2)
    ∧ keysOf (monitorHist kinds) = firstSeen kinds := by
  refine ⟨?_, ?_, ?_, keysOf_monitorHist kinds⟩
  · exact List.Pairwise.sublist (List.take_sublist 5 _) (sortDesc_sorted _)
  · intro a b h hab
    exact pair_sublist_sortDesc (h.trans (List.take_sublist 5 _)) hab
  · intro p hp hnp q hq
    have hps : p ∈ sortDesc (monitorHist kinds) := mem_sortDesc.mpr hp
    have hsplit := List.take_append_drop 5 (sortDesc (monitorHist kinds))
    rw [← hsplit] at hps
    have hpd : p ∈ (sortDesc (monitorHist kinds)).drop 5 := by
      rcases List.mem_append.mp hps with h1 | h1
      · exact absurd h1 hnp
      · exact h1
    have hpw := sortDesc_sorted (monitorHist kinds)
    rw [← hsplit] at hpw
    exact (List.pairwise_append.mp hpw).2.2 q hq p hpd

/-- Witness for `monitor_top5_order`: on the stream with kinds `a` then `b`
(a frequency tie), the tie-order clause puts `a` before `b` in the histogram
order. -/
theorem monitor_top5_order_witness :
    [(Json.str ("a"), 1), (Json.str ("b"), 1)]
      <+ monitorHist [Json.str ("a"), Json.str ("b")] := by
  apply (monitor_top5_order [Json.str ("a"), Json.str ("b")]).2.1
    (Json.str ("a"), 1) (Json.str ("b"), 1)
  · exact List.Sublist.refl _
  · rfl


/-- Witness for `command_roundtrip` at a concrete command. -/
theorem command_roundtrip_witness :
    decode_as_command (encodeCommand (Command.SetVariable ("last_cwd") ("/tmp")))
      = some (Command.SetVariable ("last_cwd") ("/tmp")) :=
  command_roundtrip (Command.SetVariable ("last_cwd") ("/tmp"))
